import Mathlib

/-!
# Verification of the `summariser` live-blog pipeline

A shallow embedding, in Lean, of the core logic of the `summariser`
repository (files `src/openai.ts`, `src/server.ts`, `src/schema.ts` and the
segmenter module): the summariser-response extraction and parsing discipline,
the diff-timer summary cycle, the live-session buffer/flush machinery (with
its raw-PCM WAV-header synthesis), the simulation-mode rolling window, and a
small event-trace model of a live WebSocket session.

Modelling conventions:
* JavaScript strings are modelled as `List Char` (named `Str` below); the
  JavaScript number values reaching the modelled code paths (clock positions,
  chunk durations) are modelled as `Int`, and byte values as `Nat`.
* JSON values (`JSON.parse` results) are modelled by the inductive `Json`;
  the external built-ins `JSON.parse` / `JSON.stringify` are passed in as
  explicit function parameters where the modelled code calls them.
* External services (the transcription and summarisation endpoints, ffmpeg)
  are nondeterministic from the program's point of view, so their results
  enter the model as oracle arguments.
* A JavaScript `throw` / rejected promise is modelled with `Except`/`Option`.
-/

/-- JavaScript strings, modelled as lists of characters. -/
abbrev Str := List Char

/-- Conversion from Lean string literals to the `Str` model. -/
def s2l (s : String) : Str := s.data

/-- The whitespace test used by `trim` and `split(/\s+/)` (restricted to the
whitespace characters that can actually occur in the modelled data). -/
def wsChar (c : Char) : Bool :=
  c == ' ' || c == '\t' || c == '\n' || c == '\r'

/-- JavaScript `String.prototype.trim`: drop whitespace from both ends. -/
def jsTrim (s : Str) : Str :=
  ((s.dropWhile wsChar).reverse.dropWhile wsChar).reverse

/-- Helper for `wordsOf`: accumulate the current in-progress word (reversed). -/
def wordsAux : Str → Str → List Str
  | [], acc => if acc = [] then [] else [acc.reverse]
  | c :: rest, acc =>
    if wsChar c then
      (if acc = [] then wordsAux rest [] else acc.reverse :: wordsAux rest [])
    else wordsAux rest (c :: acc)

/-- `completeTranscript.trim().split(/\s+/).filter(w => w.length > 0)`
(src/server.ts:95): the list of maximal whitespace-free runs of a string. -/
def wordsOf (s : Str) : List Str := wordsAux s []

/-- JSON values, the results of `JSON.parse`.  Numbers are modelled as `Int`
(no fractional numeric values flow through the modelled paths). -/
inductive Json where
  | null : Json
  | bool (b : Bool) : Json
  | num (n : Int) : Json
  | str (s : String) : Json
  | arr (elems : List Json) : Json
  | obj (fields : List (String × Json)) : Json

/-- Property lookup on a JSON object field list (`o.k`); `none` models the
JavaScript `undefined`. -/
def jget (fields : List (String × Json)) (k : String) : Option Json :=
  (fields.find? (fun p => p.1 == k)).map (·.2)

/-- Property lookup through a whole JSON value: `undefined` on non-objects
(array index keys are not used by the modelled code). -/
def jobjGet (j : Json) (k : String) : Option Json :=
  match j with
  | .obj fields => jget fields k
  | _ => none

/-- JavaScript truthiness of a JSON value. -/
def jsTruthy : Json → Bool
  | .null => false
  | .bool b => b
  | .num n => n != 0
  | .str s => s ≠ ""
  | .arr _ => true
  | .obj _ => true

/-- `v || d` for a possibly-absent JavaScript value `v` (`none` = `undefined`). -/
def jsOr (v : Option Json) (d : Json) : Json :=
  match v with
  | some x => if jsTruthy x then x else d
  | none => d

/-- `v ?? d` (nullish coalescing) for a possibly-absent JavaScript value. -/
def jsNullish (v : Option Json) (d : Json) : Json :=
  match v with
  | some .null => d
  | some x => x
  | none => d

/-- `typeof v === "object" && v` (the check at src/openai.ts:206): arrays and
objects pass, `null` and primitives do not. -/
def jsObjectLike : Json → Bool
  | .obj _ => true
  | .arr _ => true
  | _ => false

/-! ## Summariser adapter: response-envelope extraction (src/openai.ts)

`summariseWindow` (lines 61-104) and `timerBasedSummarise` (lines 170-215)
share the candidate-extraction logic over the loosely-typed response
envelope `resp.output[0]`. -/

/-- The candidate-extraction block (src/openai.ts:66-80 and 174-184):
`content` (first element if an array, else the single item), then
`output_text`, then `text`, else the envelope itself.  `none` models the
JavaScript `undefined`.  A non-object envelope would make the JavaScript
`in` operator throw a TypeError; this is modelled as extraction failure
(the enclosing call throws either way). -/
def extractCandidate (firstOutput : Json) : Option Json :=
  match firstOutput with
  | .obj fs =>
    if (jget fs "content").isSome then
      match jget fs "content" with
      | some (.arr xs) => xs.head?
      | some v => some v
      | none => none
    else if (jget fs "output_text").isSome then jget fs "output_text"
    else if (jget fs "text").isSome then jget fs "text"
    else some firstOutput
  | _ => none

/-- The normalised output object of `summariseWindow` (src/openai.ts:62):
`{ type?: string, text: string }`.  Both fields are kept as `Json` because
the nested branch (line 94) copies `inner.text` without a type check. -/
structure OutObj where
  otype : Json
  otext : Json

/-- Candidate normalisation in `summariseWindow` (src/openai.ts:86-96):
a bare string, an object with a string `text`, or a nested object whose
`content` holds the above. -/
def candidateToOut (candidate : Json) : Option OutObj :=
  match candidate with
  | .str s => some ⟨.str "output_text", .str s⟩
  | .obj fs =>
    match jget fs "text" with
    | some (.str t) => some ⟨jsNullish (jget fs "type") (.str "output_text"), .str t⟩
    | _ =>
      match jget fs "content" with
      | some cv =>
        match (match cv with | .arr xs => xs.head? | v => some v) with
        | some (.str s) => some ⟨.str "output_text", .str s⟩
        | some (.obj gs) =>
          match jget gs "text" with
          | some tv => some ⟨jsNullish (jget gs "type") (.str "output_text"), tv⟩
          | none => none
        | _ => none
      | none => none
  | _ => none

/-- The full extraction of `summariseWindow` (src/openai.ts:64-100),
including the two thrown shape errors. -/
def summariseWindowExtract (firstOutput : Option Json) : Except String OutObj :=
  match firstOutput.bind (fun fo => (extractCandidate fo).bind candidateToOut) with
  | none => .error "Unexpected response shape: no textual output found"
  | some o =>
    match o.otype with
    | .str ty =>
      if ty = "output_text" then .ok o
      else .error "Unexpected response shape: output not of type 'output_text'"
    | _ => .error "Unexpected response shape: output not of type 'output_text'"

/-- The return path of `summariseWindow` (src/openai.ts:102-104): the parsed
JSON is returned unchanged — `return parsed;` — with no time fields injected
or overwritten (the comment in the source reads "no time fields in new
shape"). -/
def summariseWindowReturn (parsed : Json) (timeStart timeEnd : Int) : Json :=
  parsed

/-- `summariseWindow` from the response envelope onwards (src/openai.ts:61-104):
extract, require `output_text`, `JSON.parse` the text, return the parsed
value.  `jparse` stands for the built-in `JSON.parse` (`none` = throw); a
non-string `outObj.text` would make `JSON.parse` throw after coercion for
every value reaching this path, modelled as a parse failure. -/
def summariseWindowRun (jparse : String → Option Json) (firstOutput : Option Json)
    (timeStart timeEnd : Int) : Except String Json :=
  match summariseWindowExtract firstOutput with
  | .error e => .error e
  | .ok o =>
    match o.otext with
    | .str s =>
      match jparse s with
      | some parsed => .ok (summariseWindowReturn parsed timeStart timeEnd)
      | none => .error "JSON.parse threw"
    | _ => .error "JSON.parse threw"

/-! ## `timerBasedSummarise` (src/openai.ts:170-216) -/

/-- The result record of `timerBasedSummarise` (src/openai.ts:210-215); the
fields keep their raw JSON values, as the source applies no type check
beyond `||`-defaulting. -/
structure TimerResultJ where
  headline : Json
  bullets : Json
  quotes : Json
  entities : Json

/-- The parse-and-default stage of `timerBasedSummarise`
(src/openai.ts:197-216): `JSON.parse` the output text (throwing a plain
`Error` on failure), reject `null`/primitives (`!parsed || typeof parsed
!== 'object'`), then default each missing/falsy field with `||`. -/
def timerParseStage (jparse : String → Option Json) (outText : String) :
    Except String TimerResultJ :=
  match jparse outText with
  | none => .error "Failed to parse timer summariser output as JSON"
  | some parsed =>
    if jsTruthy parsed && jsObjectLike parsed then
      .ok ⟨jsOr (jobjGet parsed "headline") (.str ""),
           jsOr (jobjGet parsed "bullets") (.arr []),
           jsOr (jobjGet parsed "quotes") (.arr []),
           jsOr (jobjGet parsed "entities") (.arr [])⟩
    else .error "Unexpected timer summariser shape"

/-- The output-text selection of `timerBasedSummarise`
(src/openai.ts:186-189): a string candidate is used directly; otherwise a
truthy `candidate.text` is used; otherwise `JSON.stringify(firstOutput)`.
Note there is no nested-`content` branch here, unlike `summariseWindow`. -/
def timerOutText (stringify : Json → String) (firstOutput : Json) : Json :=
  let candidate := extractCandidate firstOutput
  let outText0 : Option Json :=
    match candidate with
    | some (.str s) => some (.str s)
    | some c =>
      if jsTruthy c then
        (match c with | .obj fs => jget fs "text" | _ => none).bind
          (fun tv => if jsTruthy tv then some tv else none)
      else none
    | none => none
  match outText0 with
  | some v => if jsTruthy v then v else .str (stringify firstOutput)
  | none => .str (stringify firstOutput)

/-- `timerBasedSummarise` from the response envelope onwards
(src/openai.ts:170-216).  `stringify` stands for the built-in
`JSON.stringify` used by the fallback at line 188.  A non-string `outText`
reaching `JSON.parse` is modelled as a parse failure. -/
def timerBasedSummariseRun (jparse : String → Option Json)
    (stringify : Json → String) (firstOutput : Option Json) :
    Except String TimerResultJ :=
  match firstOutput with
  | none => .error "No response from timer summariser"
  | some fo =>
    match timerOutText stringify fo with
    | .str s => timerParseStage jparse s
    | _ => .error "Failed to parse timer summariser output as JSON"

/-! ## Diff-timer summary cycle (src/server.ts:89-135)

The summary-timer callback: take the last `summaryWordsPref` words of
`completeTranscript`, call `timerBasedSummarise`, and broadcast a chunk
card iff the returned headline is non-empty after trimming.  The summariser
result is given as an oracle (`Except` models the `try`/`catch` at
lines 103-133: `.error` is a thrown error, logged and swallowed).  The
fields here are typed (`headline : Str`, list-valued arrays) because the
structured-output schema pins the summariser JSON to that shape. -/

/-- The typed summariser result used by the summary-timer callback. -/
structure TimerSummary where
  headline : Str
  bullets : List Str
  quotes : List Str
  entities : List Str

/-- `LiveBlogChunk` (src/schema.ts:1-8), the broadcast summary card. -/
structure LiveBlogChunk where
  id : Str
  headline : Str
  bullets : List Str
  quotes : List Str
  entities : List Str
  revision_of : Option Str
deriving DecidableEq

/-- The `previousSummary` rendering (src/server.ts:126):
`Headline: ${headline}\nBullets: ${bullets.join('; ')}`. -/
def renderPrev (headline : Str) (bullets : List Str) : Str :=
  s2l "Headline: " ++ headline ++ s2l "\nBullets: " ++
    List.intercalate (s2l "; ") bullets

/-- `words.slice(-summaryWordsPref).join(' ')` over the words of the
transcript (src/server.ts:95-96). -/
def lastWordsOf (transcript : Str) (pref : Nat) : Str :=
  let words := wordsOf transcript
  List.intercalate (s2l " ") (words.drop (words.length - pref))

/-- One summary-timer cycle (src/server.ts:91-134): returns the list of
broadcast chunk cards (`[]` or one card) and the new `previousSummary`.
`freshId` is the `randomUUID()` value generated for the card. -/
def summaryCycle (completeTranscript previousSummary : Str) (pref : Nat)
    (result : Except Str TimerSummary) (freshId : Str) :
    List LiveBlogChunk × Str :=
  let lastWords := lastWordsOf completeTranscript pref
  if lastWords = [] then ([], previousSummary)
  else
    match result with
    | .error _ => ([], previousSummary)
    | .ok summary =>
      if summary.headline ≠ [] ∧ jsTrim summary.headline ≠ [] then
        ([⟨freshId, summary.headline, summary.bullets, summary.quotes,
           summary.entities, none⟩],
         renderPrev summary.headline summary.bullets)
      else ([], previousSummary)

/-! ## Transcript accumulation (src/server.ts:188-209)

The transcription loop builds `allText` by joining fragment texts with a
single space, then appends `allText.trim()` to `completeTranscript`
(again space-separated) when non-empty. -/

/-- `allText += (allText ? " " : "") + text` folded over the fragment texts
(src/server.ts:191-199). -/
def joinSp (ts : List Str) : Str :=
  ts.foldl (fun acc t => acc ++ (if acc = ([] : Str) then [] else [' ']) ++ t) []

/-- The transcript append of one processed batch (src/server.ts:201-205):
`completeTranscript += (completeTranscript ? " " : "") + allText.trim()`,
skipped when `allText.trim()` is empty. -/
def appendBatch (transcript : Str) (texts : List Str) : Str :=
  if jsTrim (joinSp texts) = [] then transcript
  else transcript ++ (if transcript = ([] : Str) then [] else [' ']) ++
    jsTrim (joinSp texts)

/-- Events broadcast over the SSE hub that the modelled paths can emit. -/
inductive Emit where
  | piece (index : Nat) (text : Str) : Emit
  | chunkEv (c : LiveBlogChunk) : Emit
deriving DecidableEq

/-- The segment-then-transcribe continuation of `processBuffer`
(src/server.ts:188-209).  `segResult` combines the `segmentFile` promise
with the per-segment transcription oracle: `.ok texts` carries one
transcribed text per produced segment file, in segment order; `.error`
is a rejected `segmentFile` promise.  No `.catch` is attached to the
promise chain in the source, so a rejection propagates out unhandled. -/
def processBufferSegmentStage (segResult : Except Str (List Str))
    (transcript : Str) : Except Str (List Emit × Str) :=
  match segResult with
  | .error e => .error e
  | .ok texts =>
    .ok ((texts.enum.map fun p => Emit.piece p.1 p.2),
         appendBatch transcript texts)

/-! ## Raw-PCM WAV header synthesis (src/server.ts:138-185)

When the handshake negotiated `s16le`, `processBuffer` concatenates the
buffered PCM chunks and writes a 44-byte canonical WAV header followed by
the raw bytes.  `Buffer.write*LE` throws a `RangeError` for out-of-range
values; the surrounding `try`/`catch` (lines 149-176) then falls back to
writing the raw buffer without a header. -/

/-- Little-endian 16-bit field, as written by `Buffer.writeUInt16LE`. -/
def u16le (v : Nat) : List Nat := [v % 256, v / 256 % 256]

/-- Little-endian 32-bit field, as written by `Buffer.writeUInt32LE`. -/
def u32le (v : Nat) : List Nat :=
  [v % 256, v / 256 % 256, v / 65536 % 256, v / 16777216 % 256]

/-- ASCII marker bytes, as written by `Buffer.write(s, off)`. -/
def asciiBytes (s : Str) : List Nat := s.map Char.toNat

/-- The 44-byte WAV header assembled at src/server.ts:151-168, with
`bytesPerSample = 2`, `blockAlign = channels * 2`,
`byteRate = sampleRate * blockAlign`, audio format 1 (PCM) and 16 bits per
sample. -/
def wavHeader (channels sampleRate dataSize : Nat) : List Nat :=
  asciiBytes (s2l "RIFF") ++ u32le (36 + dataSize) ++
  asciiBytes (s2l "WAVE") ++ asciiBytes (s2l "fmt ") ++
  u32le 16 ++ u16le 1 ++ u16le channels ++ u32le sampleRate ++
  u32le (sampleRate * (channels * 2)) ++ u16le (channels * 2) ++
  u16le (2 * 8) ++ asciiBytes (s2l "data") ++ u32le dataSize

/-- The header write with the Node range checks: `Buffer.writeUInt16LE`
accepts values below 2^16 and `Buffer.writeUInt32LE` values below 2^32;
out-of-range values throw, which the `catch` at line 172 turns into a raw
write (`none`). -/
def wavHeaderChecked (channels sampleRate dataSize : Nat) : Option (List Nat) :=
  if channels < 65536 ∧ channels * 2 < 65536 ∧ sampleRate < 4294967296 ∧
     sampleRate * (channels * 2) < 4294967296 ∧ 36 + dataSize < 4294967296 then
    some (wavHeader channels sampleRate dataSize)
  else none

/-- The temp-file contents written by the PCM branch of `processBuffer`
(src/server.ts:143-177): header + PCM on success, raw PCM on a header
write failure. -/
def pcmFileBytes (channels sampleRate : Nat) (pcm : List Nat) : List Nat :=
  match wavHeaderChecked channels sampleRate pcm.length with
  | some h => h ++ pcm
  | none => pcm

/-- The branch selection and temp-file contents of `processBuffer`
(src/server.ts:139-185): `none` when both buffers are empty (early
return); the PCM branch (with WAV header) when PCM chunks are buffered or
the negotiated format is `s16le`; the raw concatenation otherwise. -/
def processBufferFile (connFormat : Option Str)
    (pcmBuffers audioBuffers : List (List Nat))
    (channels sampleRate : Nat) : Option (List Nat) :=
  if audioBuffers = [] ∧ pcmBuffers = [] then none
  else if pcmBuffers ≠ [] ∨ connFormat = some (s2l "s16le") then
    some (pcmFileBytes channels sampleRate pcmBuffers.join)
  else some audioBuffers.join

/-- Little-endian 16-bit read-back from a byte list. -/
def readU16 (bytes : List Nat) (off : Nat) : Nat :=
  bytes.getD off 0 + 256 * bytes.getD (off + 1) 0

/-- Little-endian 32-bit read-back from a byte list. -/
def readU32 (bytes : List Nat) (off : Nat) : Nat :=
  bytes.getD off 0 + 256 * bytes.getD (off + 1) 0 +
  65536 * bytes.getD (off + 2) 0 + 16777216 * bytes.getD (off + 3) 0

/-! ## Simulation pipeline: rolling window (src/server.ts:301-346)

For each segment the simulated clock advances by `argv.chunk`; the window
passed to `summariseWindow` is the newline-join of all transcript history
entries whose end time exceeds `max(0, end - max(30, chunk * 2))`. -/

/-- One transcript-history entry `{ start, end, text }` (src/server.ts:307). -/
structure SimEntry where
  startT : Int
  endT : Int
  text : Str
deriving DecidableEq

/-- `windowBackSeconds = Math.max(30, argv.chunk * 2)` (src/server.ts:306). -/
def windowBack (chunk : Int) : Int := max 30 (chunk * 2)

/-- The filter-and-join building `windowText` (src/server.ts:327-331). -/
def windowTextOf (history : List SimEntry) (endT chunk : Int) : Str :=
  List.intercalate (s2l "\n")
    ((history.filter fun en => decide (max 0 (endT - windowBack chunk) < en.endT)).map
      (fun en => en.text))

/-- The simulation loop (src/server.ts:311-346), given the transcription
oracle as the list of per-segment texts: returns, per step, the
`transcriptWindow` string passed to `summariseWindow`. -/
def simLoop (chunk : Int) : Int → List SimEntry → List Str → List Str
  | _, _, [] => []
  | clock, history, t :: rest =>
    let history' := history ++ [⟨clock, clock + chunk, t⟩]
    windowTextOf history' (clock + chunk) chunk ::
      simLoop chunk (clock + chunk) history' rest

/-- The `summariseWindow` inputs over a whole simulated file
(clock starts at 0 with no history, src/server.ts:309). -/
def simCalls (chunk : Int) (texts : List Str) : List Str :=
  simLoop chunk 0 [] texts

/-- The transcript history after the first `n` steps, written with explicit
clock values: entry `j` spans `[j*chunk, (j+1)*chunk]`. -/
def entriesFromClock (chunk : Int) : Int → List Str → List SimEntry
  | _, [] => []
  | clock, t :: rest => ⟨clock, clock + chunk, t⟩ :: entriesFromClock chunk (clock + chunk) rest

/-! ## Live-session event machine (src/server.ts:65-298)

One WebSocket connection owns buffers, the running transcript, the
previous-summary cache and the two timers.  Messages, ingest flushes
(the `processIntervalMs` timeout firing `processBuffer` together with the
completion of its segmentation/transcription chain), summary-timer ticks
and the close event are modelled as an event trace.  Oracles: the
per-segment transcription texts of a flush, and the summariser result and
`randomUUID()` of a summary tick.  String messages that fail JSON parsing
are dropped by the handler's `catch` (line 278) and never reach the
buffers, so they do not appear as events. -/

/-- The handshake fields used by the modelled state (src/server.ts:217-228);
`none` models an absent/falsy field. -/
structure HsCfg where
  format : Option Str
  summaryWords : Option Nat
deriving DecidableEq

/-- `msg.summaryWords || summaryWordsPref`: keep the current value when the
field is absent or `0` (falsy). -/
def jsOrNat (v : Option Nat) (d : Nat) : Nat :=
  match v with
  | some n => if n = 0 then d else n
  | none => d

/-- A WebSocket message, after the recognition logic of
src/server.ts:213-268: either a message recognised as a handshake
(`kind == 'handshake'`, whether sent as a string or sniffed out of a
buffer), or a payload reaching the binary-audio path. -/
inductive WsMsg where
  | handshake (cfg : HsCfg) : WsMsg
  | wsBinary (data : List Nat) : WsMsg
deriving DecidableEq

/-- An event in the life of one connection. -/
inductive SessEvent where
  | message (m : WsMsg) : SessEvent
  | ingestFlush (transcripts : List Str) : SessEvent
  | summaryTick (result : Except Str TimerSummary) (freshId : Str) : SessEvent
  | close : SessEvent

/-- The per-connection mutable state (src/server.ts:66-84). -/
structure SessState where
  audioBuffers : List (List Nat)
  pcmBuffers : List (List Nat)
  summaryStarted : Bool
  closed : Bool
  completeTranscript : Str
  previousSummary : Str
  connFormat : Option Str
  summaryWordsPref : Nat

/-- The initial state of a fresh connection (src/server.ts:66-84):
empty buffers, no format, `summaryWordsPref = 40`, no summary timer. -/
def initSession : SessState :=
  ⟨[], [], false, false, [], [], none, 40⟩

/-- Applying a recognised handshake (src/server.ts:217-237):
`connFormat = msg.format || null`, `summaryWordsPref = msg.summaryWords ||
summaryWordsPref`, and `startSummaryTimer()`. -/
def applyHandshake (st : SessState) (cfg : HsCfg) : SessState :=
  { st with connFormat := cfg.format,
            summaryWordsPref := jsOrNat cfg.summaryWords st.summaryWordsPref,
            summaryStarted := true }

/-- One step of the session machine: the next state and the broadcast
events it emits. -/
def sessStep (st : SessState) (e : SessEvent) : SessState × List Emit :=
  match e with
  | .message (.handshake cfg) => (applyHandshake st cfg, [])
  | .message (.wsBinary b) =>
    if st.connFormat = some (s2l "s16le") then
      ({ st with pcmBuffers := st.pcmBuffers ++ [b] }, [])
    else
      ({ st with audioBuffers := st.audioBuffers ++ [b] }, [])
  | .ingestFlush trs =>
    if st.audioBuffers = [] ∧ st.pcmBuffers = [] then (st, [])
    else
      let st1 :=
        if st.pcmBuffers ≠ [] ∨ st.connFormat = some (s2l "s16le") then
          { st with pcmBuffers := [] }
        else { st with audioBuffers := [] }
      ({ st1 with completeTranscript := appendBatch st.completeTranscript trs },
       trs.enum.map fun p => Emit.piece p.1 p.2)
  | .summaryTick res fid =>
    if st.closed then (st, [])
    else
      let r := summaryCycle st.completeTranscript st.previousSummary
        st.summaryWordsPref res fid
      ({ st with previousSummary := r.2 }, r.1.map Emit.chunkEv)
  | .close => ({ st with closed := true }, [])

/-- Run a trace of events, collecting the emitted broadcasts in order. -/
def runSession : SessState → List SessEvent → SessState × List Emit
  | st, [] => (st, [])
  | st, e :: es =>
    let r := sessStep st e
    let r2 := runSession r.1 es
    (r2.1, r.2 ++ r2.2)

/-- Which events can occur in a given state: a summary tick exists only
once the handshake called `startSummaryTimer()` (src/server.ts:237) and
before `close` cleared the interval (src/server.ts:294). -/
def sessPermitted (st : SessState) : SessEvent → Bool
  | .summaryTick _ _ => st.summaryStarted && !st.closed
  | _ => true

/-- Trace validity: every event is permitted in the state it occurs in. -/
def sessValid : SessState → List SessEvent → Bool
  | _, [] => true
  | st, e :: es => sessPermitted st e && sessValid (sessStep st e).1 es

/-- The state after the first `n` events of a trace. -/
def stateAfter (es : List SessEvent) (n : Nat) : SessState :=
  (runSession initSession (es.take n)).1

/-- Does this event carry a message recognised as a handshake? -/
def isHandshakeEv : SessEvent → Bool
  | .message (.handshake _) => true
  | _ => false

/-- Is this broadcast a `chunk` card? -/
def isChunkEmit : Emit → Bool
  | .chunkEv _ => true
  | _ => false

/-- Is this broadcast a `transcript_piece` event? -/
def isPieceEmit : Emit → Bool
  | .piece _ _ => true
  | _ => false

/-! ## JSON.stringify

A concrete model of the built-in `JSON.stringify`, used by the fallback at
src/openai.ts:188 (`outText = JSON.stringify(firstOutput)`).  The escape
function covers the characters that occur in the modelled values. -/

/-- String-content escaping for JSON serialisation. -/
def jescape (s : String) : String :=
  String.mk (s.data.flatMap fun c =>
    if c = '"' then ['\\', '"'] else if c = '\\' then ['\\', '\\'] else [c])

mutual
/-- `JSON.stringify` on the `Json` model. -/
def jstringify : Json → String
  | .null => "null"
  | .bool b => if b then "true" else "false"
  | .num n => toString n
  | .str s => "\"" ++ jescape s ++ "\""
  | .arr xs => "[" ++ String.intercalate "," (jstringifyList xs) ++ "]"
  | .obj fs => "\x7b" ++ String.intercalate "," (jstringifyFields fs) ++ "\x7d"
/-- Serialised array elements. -/
def jstringifyList : List Json → List String
  | [] => []
  | x :: xs => jstringify x :: jstringifyList xs
/-- Serialised object fields. -/
def jstringifyFields : List (String × Json) → List String
  | [] => []
  | (k, v) :: fs => ("\"" ++ jescape k ++ "\":" ++ jstringify v) :: jstringifyFields fs
end

/-! ## Canonical decomposition of the space-joined batch text

`joinSp` (the `allText` fold) coincides, for batches whose first fragment is
non-empty, with a head-plus-separated-tail normal form that makes the offset
of each fragment inside the appended transcript explicit. -/

/-- Each element prefixed with the separating space, concatenated. -/
def sepSuf (zs : List Str) : Str := (zs.map (fun u => ' ' :: u)).join

/-- Normal form of the space-join: head fragment, then space-prefixed rest. -/
def sepJoin (ts : List Str) : Str :=
  match ts with
  | [] => []
  | t :: rest => t ++ sepSuf rest

/-- The text standing before a designated fragment in the space-join. -/
def sepPre (xs : List Str) : Str :=
  match xs with
  | [] => []
  | x :: xs2 => x ++ sepSuf xs2 ++ [' ']

/-! ## Concrete test vectors used by the counterexamples and witnesses -/

/-- A response envelope carrying the answer as a bare string inside
`content` (the first candidate shape of src/openai.ts:82-85). -/
def envBare (p : String) : Json := .obj [("content", .arr [.str p])]

/-- A response envelope carrying the answer as `{type, text}` (the second
candidate shape). -/
def envTyped (p : String) : Json :=
  .obj [("content", .arr [.obj [("type", .str "output_text"), ("text", .str p)]])]

/-- A response envelope carrying the answer in a nested `{content:[{text}]}`
structure (the third candidate shape, handled at src/openai.ts:91-95). -/
def envNested (p : String) : Json :=
  .obj [("content", .arr [.obj [("content", .arr [.obj [("text", .str p)]])]])]

/-- A summariser answer that echoes time fields: a well-formed card JSON
with `time_start: 99` and `time_end: 100`. -/
def c1Echo : Json :=
  .obj [("headline", .str "h"), ("bullets", .arr []), ("quotes", .arr []),
        ("entities", .arr []), ("time_start", .num 99), ("time_end", .num 100)]

/-- The serialised form of `c1Echo`. -/
def c1Text : String := jstringify c1Echo

/-- `JSON.parse` pinned at the one string fed through the C1 scenario. -/
def c1Parse (s : String) : Option Json :=
  if s = c1Text then some c1Echo else none

/-- The fields of a summariser answer missing the required `entities` key. -/
def c2Fields : List (String × Json) :=
  [("headline", .str "New point"), ("bullets", .arr []), ("quotes", .arr [])]

/-- The serialised form of the missing-`entities` answer. -/
def c2Text : String := jstringify (.obj c2Fields)

/-- `JSON.parse` pinned at the missing-`entities` answer. -/
def c2Parse (s : String) : Option Json :=
  if s = c2Text then some (.obj c2Fields) else none

/-- A well-formed card payload for the envelope-shape comparison. -/
def c7Card : Json :=
  .obj [("headline", .str "h"), ("bullets", .arr []), ("quotes", .arr []),
        ("entities", .arr [])]

/-- Its serialised form — the payload string `p` of the comparison. -/
def c7Text : String := jstringify c7Card

/-- `JSON.parse` pinned at the two strings produced in the C7 scenario: the
payload itself and the stringified nested envelope (the fallback output of
src/openai.ts:188). -/
def c7Parse (s : String) : Option Json :=
  if s = c7Text then some c7Card
  else if s = jstringify (envNested c7Text) then some (envNested c7Text)
  else none

/-- A handshake-free event trace: binary audio, an ingest flush, more audio,
then close. -/
def w10Events : List SessEvent :=
  [.message (.wsBinary [1, 2, 3]), .ingestFlush [s2l "hello world"],
   .message (.wsBinary [4]), .close]

/-! # Theorems -/

/-- C1 (counterexample): `summariseWindow` does not overwrite echoed time
fields.  Feeding it an envelope whose payload carries `time_start: 99` and
`time_end: 100` while the caller supplies `timeStart = 0`, `timeEnd = 15`
returns the echoed values untouched — the returned card's time fields do
not equal the caller-supplied times. -/
theorem summariseWindow_echoed_time_not_overwritten :
    summariseWindowRun c1Parse (some (envBare c1Text)) 0 15 = .ok c1Echo ∧
    jobjGet c1Echo "time_start" = some (.num 99) ∧
    jobjGet c1Echo "time_end" = some (.num 100) ∧
    jobjGet c1Echo "time_start" ≠ some (.num 0) ∧
    jobjGet c1Echo "time_end" ≠ some (.num 15) := by
  refine ⟨rfl, rfl, rfl, ?_, ?_⟩ <;> simp [jobjGet, jget, c1Echo]

/-- C1 (amended): `summariseWindow` returns the parsed JSON unchanged — the
result is independent of the caller-supplied `timeStart`/`timeEnd`, and any
time fields present in the summariser's echoed JSON pass through as-is
(src/openai.ts:102-104). -/
theorem summariseWindow_returns_parsed_unchanged
    (jparse : String → Option Json) (fo : Option Json) (parsed : Json)
    (ts te ts' te' : Int) :
    summariseWindowRun jparse fo ts te = summariseWindowRun jparse fo ts' te' ∧
    summariseWindowReturn parsed ts te = parsed ∧
    jobjGet (summariseWindowReturn parsed ts te) "time_start" =
      jobjGet parsed "time_start" ∧
    jobjGet (summariseWindowReturn parsed ts te) "time_end" =
      jobjGet parsed "time_end" :=
  ⟨rfl, rfl, rfl, rfl⟩

/-- C2 (counterexample): a summariser response whose text parses to a JSON
object missing the required `entities` key is not rejected: `timerBasedSummarise`
returns a successful result with `entities` defaulted to `[]`, and the
summary cycle still broadcasts a card for it (headline non-empty), contrary
to the claimed `SchemaViolationError` with no broadcast. -/
theorem timerSummarise_missing_entities_accepted :
    timerParseStage c2Parse c2Text =
      .ok ⟨.str "New point", .arr [], .arr [], .arr []⟩ ∧
    (timerParseStage c2Parse c2Text).isOk = true ∧
    (summaryCycle (s2l "hello world") [] 40
        (.ok ⟨s2l "New point", [], [], []⟩) (s2l "id-1")).1 =
      [⟨s2l "id-1", s2l "New point", [], [], [], none⟩] :=
  ⟨rfl, rfl, rfl⟩

/-- C2 (amended): whenever the extracted text parses to a JSON object with
no `entities` key, `timerBasedSummarise` succeeds with `entities = []` (and
each other field `||`-defaulted); only unparseable JSON or a non-object
parse result raises a (plain) error (src/openai.ts:197-216). -/
theorem timerSummarise_missing_entities_defaults
    (jparse : String → Option Json) (s : String) (fs : List (String × Json))
    (hp : jparse s = some (.obj fs)) (he : jget fs "entities" = none) :
    timerParseStage jparse s =
      .ok ⟨jsOr (jget fs "headline") (.str ""), jsOr (jget fs "bullets") (.arr []),
           jsOr (jget fs "quotes") (.arr []), .arr []⟩ := by
  unfold timerParseStage
  rw [hp]
  simp [jsTruthy, jsObjectLike, jobjGet, he, jsOr]

/-- C2 (witness): the amended statement evaluated at the concrete
missing-`entities` response. -/
theorem timerSummarise_missing_entities_defaults_witness :
    c2Parse c2Text = some (.obj c2Fields) ∧ jget c2Fields "entities" = none ∧
    timerParseStage c2Parse c2Text =
      .ok ⟨jsOr (jget c2Fields "headline") (.str ""),
           jsOr (jget c2Fields "bullets") (.arr []),
           jsOr (jget c2Fields "quotes") (.arr []), .arr []⟩ :=
  ⟨rfl, rfl, timerSummarise_missing_entities_defaults c2Parse c2Text c2Fields rfl rfl⟩

/-- C3: a diff-timer cycle whose summariser result has an empty or
whitespace-only headline broadcasts nothing and leaves `previousSummary`
unchanged (src/server.ts:114-130). -/
theorem summaryCycle_empty_headline_no_broadcast
    (t prev : Str) (pref : Nat) (s : TimerSummary) (fid : Str)
    (h : jsTrim s.headline = []) :
    summaryCycle t prev pref (.ok s) fid = ([], prev) := by
  simp only [summaryCycle]
  split
  · rfl
  · rw [if_neg]
    intro hc
    exact hc.2 h

/-- C3 (witness): a whitespace-only headline at a concrete cycle. -/
theorem summaryCycle_empty_headline_no_broadcast_witness :
    jsTrim (s2l "   ") = [] ∧
    summaryCycle (s2l "hello world") (s2l "prev") 40
      (.ok ⟨s2l "   ", [s2l "stale"], [], []⟩) (s2l "id-3") = ([], s2l "prev") :=
  ⟨rfl, summaryCycle_empty_headline_no_broadcast _ _ _ _ _ rfl⟩

/-- C5: a diff-timer cycle with words available and a non-empty (after
trimming) headline broadcasts exactly one card — with the freshly generated
id and `revision_of = null` — and overwrites `previousSummary` with the
`Headline: ...\nBullets: ...`(semicolon-joined) rendering of that card
(src/server.ts:113-130). -/
theorem summaryCycle_nonempty_headline_broadcasts
    (t prev : Str) (pref : Nat) (s : TimerSummary) (fid : Str)
    (hw : lastWordsOf t pref ≠ []) (hh : jsTrim s.headline ≠ []) :
    summaryCycle t prev pref (.ok s) fid =
      ([⟨fid, s.headline, s.bullets, s.quotes, s.entities, none⟩],
       renderPrev s.headline s.bullets) := by
  have hne : s.headline ≠ [] := by
    intro h0
    apply hh
    rw [h0]
    rfl
  simp only [summaryCycle]
  rw [if_neg hw, if_pos ⟨hne, hh⟩]

/-- C5 (witness): a concrete successful cycle. -/
theorem summaryCycle_nonempty_headline_broadcasts_witness :
    lastWordsOf (s2l "hello world") 40 ≠ [] ∧ jsTrim (s2l "Big news") ≠ [] ∧
    summaryCycle (s2l "hello world") (s2l "prev") 40
      (.ok ⟨s2l "Big news", [s2l "a", s2l "b"], [], []⟩) (s2l "id-7") =
      ([⟨s2l "id-7", s2l "Big news", [s2l "a", s2l "b"], [], [], none⟩],
       renderPrev (s2l "Big news") [s2l "a", s2l "b"]) :=
  ⟨by decide, by decide,
   summaryCycle_nonempty_headline_broadcasts _ _ _ _ _ (by decide) (by decide)⟩

/-- C4 (counterexample): a rejected `segmentFile` promise is not caught at
the cycle boundary: the failure propagates out of the flush unhandled
instead of being logged and dropped (`.ok ([], unchanged)` would be the
drop outcome). -/
theorem processBuffer_segmentation_error_uncaught :
    processBufferSegmentStage (.error (s2l "ffmpeg exited with code 1")) (s2l "prior") =
      .error (s2l "ffmpeg exited with code 1") ∧
    processBufferSegmentStage (.error (s2l "ffmpeg exited with code 1")) (s2l "prior") ≠
      .ok ([], s2l "prior") :=
  ⟨rfl, by simp [processBufferSegmentStage]⟩

/-- C4 (amended): `processBuffer` attaches no rejection handler to
`segmentFile(...)` (src/server.ts:188-209), so a segmentation failure
propagates out of the cycle as an unhandled rejection (no `SegmentationError`
type exists and the batch is not logged-and-dropped); only on success does
the cycle emit per-segment `transcript_piece` events and append the batch to
the transcript. -/
theorem processBuffer_segmentation_error_propagates
    (e transcript : Str) (texts : List Str) :
    processBufferSegmentStage (.error e) transcript = .error e ∧
    processBufferSegmentStage (.ok texts) transcript =
      .ok ((texts.enum.map fun p => Emit.piece p.1 p.2),
           appendBatch transcript texts) :=
  ⟨rfl, rfl⟩

/-- C7 (counterexample): the two summariser adapters do not share the full
normalisation discipline — `timerBasedSummarise` has no nested-`content`
branch (src/openai.ts:186-189), so for the same payload the `{type,text}`
envelope yields the payload's card while the nested `{content:[{text}]}`
envelope falls back to `JSON.stringify` of the whole envelope and yields a
defaulted (empty-headline) card: not the identical parsed summary card. -/
theorem timer_nested_envelope_differs :
    timerBasedSummariseRun c7Parse jstringify (some (envTyped c7Text)) =
      .ok ⟨.str "h", .arr [], .arr [], .arr []⟩ ∧
    timerBasedSummariseRun c7Parse jstringify (some (envNested c7Text)) =
      .ok ⟨.str "", .arr [], .arr [], .arr []⟩ ∧
    timerBasedSummariseRun c7Parse jstringify (some (envTyped c7Text)) ≠
      timerBasedSummariseRun c7Parse jstringify (some (envNested c7Text)) := by
  refine ⟨rfl, rfl, ?_⟩
  intro h
  have h2 : (Except.ok ⟨Json.str "h", .arr [], .arr [], .arr []⟩ :
      Except String TimerResultJ) = .ok ⟨.str "", .arr [], .arr [], .arr []⟩ := h
  simp at h2

/-- C7 (amended): for every non-empty JSON payload, `summariseWindow`
treats all three envelope shapes (bare string, `{type,text}`, nested
`{content:[{text}]}`) identically — same extraction, hence the identical
parsed card for any parse function — while `timerBasedSummarise` agrees
across the bare-string and `{type,text}` shapes only. -/
theorem envelope_shapes_parse_agreement
    (jparse : String → Option Json) (p : String) (ts te : Int) (hp : p ≠ "") :
    (summariseWindowRun jparse (some (envBare p)) ts te =
        summariseWindowRun jparse (some (envTyped p)) ts te ∧
      summariseWindowRun jparse (some (envBare p)) ts te =
        summariseWindowRun jparse (some (envNested p)) ts te ∧
      summariseWindowExtract (some (envBare p)) =
        .ok ⟨.str "output_text", .str p⟩) ∧
    ∀ stringify, timerBasedSummariseRun jparse stringify (some (envBare p)) =
        timerBasedSummariseRun jparse stringify (some (envTyped p)) := by
  refine ⟨⟨rfl, rfl, rfl⟩, ?_⟩
  intro stringify
  have h1 : jsTruthy (.str p) = true := by simp [jsTruthy, hp]
  simp only [timerBasedSummariseRun, timerOutText, extractCandidate, envBare,
    envTyped, jget, jsTruthy, List.find?, List.head?, h1, Option.bind]
  simp [hp]

/-- C7 (witness): the amended statement evaluated at the concrete payload
`"1"`. -/
theorem envelope_shapes_parse_agreement_witness :
    ("1" : String) ≠ "" ∧
    ((summariseWindowRun (fun _ => none) (some (envBare "1")) 0 15 =
        summariseWindowRun (fun _ => none) (some (envTyped "1")) 0 15 ∧
      summariseWindowRun (fun _ => none) (some (envBare "1")) 0 15 =
        summariseWindowRun (fun _ => none) (some (envNested "1")) 0 15 ∧
      summariseWindowExtract (some (envBare "1")) =
        .ok ⟨.str "output_text", .str "1"⟩) ∧
    ∀ stringify, timerBasedSummariseRun (fun _ => none) stringify (some (envBare "1")) =
        timerBasedSummariseRun (fun _ => none) stringify (some (envTyped "1"))) :=
  ⟨by decide, envelope_shapes_parse_agreement (fun _ => none) "1" 0 15 (by decide)⟩

/-- Each step of the simulation loop summarises the window built from the
history accumulated so far, with the clock advanced by `chunk` per step. -/
theorem simLoop_get (chunk : Int) :
    ∀ (ts : List Str) (i : Nat) (clock : Int) (hist : List SimEntry),
      i < ts.length →
      (simLoop chunk clock hist ts).get? i =
        some (windowTextOf (hist ++ entriesFromClock chunk clock (ts.take (i + 1)))
          (clock + (↑i + 1) * chunk) chunk) := by
  intro ts
  induction ts with
  | nil =>
    intro i c h hi
    simp at hi
  | cons t rest ih =>
    intro i clock hist hi
    cases i with
    | zero =>
      simp only [simLoop, List.get?_cons_zero, List.take, entriesFromClock,
        Option.some.injEq]
      norm_num
    | succ n =>
      have hn : n < rest.length := by simpa using hi
      simp only [simLoop, List.get?_cons_succ]
      rw [ih n (clock + chunk) (hist ++ [SimEntry.mk clock (clock + chunk) t]) hn]
      have harith : clock + chunk + (↑n + 1) * chunk = clock + (↑(n + 1) + 1) * chunk := by
        push_cast
        ring
      simp only [harith, List.take_succ_cons, entriesFromClock,
        List.append_assoc, List.cons_append, List.singleton_append,
        List.nil_append]

/-- C6: in the rolling-window simulation, the `i`-th `summariseWindow` call
receives exactly the newline-joined texts of the transcript entries whose
end time exceeds `max(0, end - max(30, chunk*2))`, where entry `j` spans
`[j*chunk, (j+1)*chunk]` and `end = (i+1)*chunk` (src/server.ts:301-346). -/
theorem simulation_window_rolling_selection (chunk : Int) (texts : List Str)
    (i : Nat) (h : i < texts.length) :
    (simCalls chunk texts).get? i =
      some (List.intercalate (s2l "\n")
        (((entriesFromClock chunk 0 (texts.take (i + 1))).filter
            (fun en => decide (max 0 ((↑i + 1) * chunk - max 30 (chunk * 2)) < en.endT))).map
          (fun en => en.text))) := by
  have hg := simLoop_get chunk texts i 0 [] h
  simp only [simCalls]
  rw [hg]
  simp [windowTextOf, windowBack]

/-- C6 (witness): the third window of a three-segment simulation with
`chunk = 15`. -/
theorem simulation_window_rolling_selection_witness :
    2 < ([s2l "alpha", s2l "bravo", s2l "charlie"] : List Str).length ∧
    (simCalls 15 [s2l "alpha", s2l "bravo", s2l "charlie"]).get? 2 =
      some (List.intercalate (s2l "\n")
        (((entriesFromClock 15 0 (([s2l "alpha", s2l "bravo", s2l "charlie"] :
              List Str).take (2 + 1))).filter
            (fun en => decide (max 0 ((((2 : Nat) : Int) + 1) * 15 - max 30 (15 * 2)) < en.endT))).map
          (fun en => en.text))) :=
  ⟨by decide, simulation_window_rolling_selection 15 _ 2 (by decide)⟩

/-- The 44-byte header in explicit byte-list normal form. -/
theorem wavHeader_explicit (c r d : Nat) :
    wavHeader c r d =
      [82, 73, 70, 70,
       (36 + d) % 256, (36 + d) / 256 % 256, (36 + d) / 65536 % 256, (36 + d) / 16777216 % 256,
       87, 65, 86, 69, 102, 109, 116, 32,
       16, 0, 0, 0,
       1, 0,
       c % 256, c / 256 % 256,
       r % 256, r / 256 % 256, r / 65536 % 256, r / 16777216 % 256,
       r * (c * 2) % 256, r * (c * 2) / 256 % 256, r * (c * 2) / 65536 % 256,
       r * (c * 2) / 16777216 % 256,
       c * 2 % 256, c * 2 / 256 % 256,
       16, 0,
       100, 97, 116, 97,
       d % 256, d / 256 % 256, d / 65536 % 256, d / 16777216 % 256] := rfl

/-- Read-back of every field of the synthesized WAV header, under the Node
write-range conditions. -/
theorem wavHeader_readback (channels sampleRate d : Nat) (pcm : List Nat)
    (h1 : channels < 65536) (h2 : channels * 2 < 65536)
    (h3 : sampleRate < 4294967296) (h4 : sampleRate * (channels * 2) < 4294967296)
    (h5 : 36 + d < 4294967296) :
    (wavHeader channels sampleRate d).length = 44 ∧
    readU16 (wavHeader channels sampleRate d ++ pcm) 20 = 1 ∧
    readU16 (wavHeader channels sampleRate d ++ pcm) 22 = channels ∧
    readU32 (wavHeader channels sampleRate d ++ pcm) 24 = sampleRate ∧
    readU32 (wavHeader channels sampleRate d ++ pcm) 28 = sampleRate * (channels * 2) ∧
    readU16 (wavHeader channels sampleRate d ++ pcm) 32 = channels * 2 ∧
    readU16 (wavHeader channels sampleRate d ++ pcm) 34 = 16 ∧
    readU32 (wavHeader channels sampleRate d ++ pcm) 40 = d ∧
    readU32 (wavHeader channels sampleRate d ++ pcm) 4 = 36 + d ∧
    (wavHeader channels sampleRate d ++ pcm).drop 44 = pcm ∧
    (wavHeader channels sampleRate d ++ pcm).take 4 = asciiBytes (s2l "RIFF") ∧
    List.take 4 (List.drop 36 (wavHeader channels sampleRate d ++ pcm)) =
      asciiBytes (s2l "data") := by
  rw [wavHeader_explicit]
  refine ⟨rfl, ?_, ?_, ?_, ?_, ?_, ?_, ?_, ?_, rfl, rfl, rfl⟩
  · simp [readU16, List.getD]
  · simp [readU16, List.getD]
    omega
  · simp [readU32, List.getD]
    omega
  · simp [readU32, List.getD]
    generalize hB : sampleRate * (channels * 2) = B at h4 ⊢
    omega
  · simp [readU16, List.getD]
    omega
  · simp [readU16, List.getD]
  · simp [readU32, List.getD]
    omega
  · simp [readU32, List.getD]
    omega

/-- C9: with a negotiated `s16le` format and non-trivially empty buffers,
`processBuffer` writes the drained PCM bytes prefixed by exactly the
44-byte WAV header, whose fields encode audio format 1 (PCM), the session's
channel count and sample rate, 16 bits per sample, block align
`channels*2`, byte rate `sampleRate*channels*2`, data-chunk size equal to
the PCM byte length and RIFF size `36 +` that length
(src/server.ts:143-177). -/
theorem pcm_wav_header_file
    (connFormat : Option Str) (pcmBuffers audioBuffers : List (List Nat))
    (channels sampleRate : Nat)
    (hf : connFormat = some (s2l "s16le"))
    (hne : ¬(audioBuffers = [] ∧ pcmBuffers = []))
    (h1 : channels < 65536) (h2 : channels * 2 < 65536)
    (h3 : sampleRate < 4294967296)
    (h4 : sampleRate * (channels * 2) < 4294967296)
    (h5 : 36 + pcmBuffers.join.length < 4294967296) :
    processBufferFile connFormat pcmBuffers audioBuffers channels sampleRate =
      some (wavHeader channels sampleRate pcmBuffers.join.length ++ pcmBuffers.join) ∧
    (wavHeader channels sampleRate pcmBuffers.join.length).length = 44 ∧
    readU16 (wavHeader channels sampleRate pcmBuffers.join.length ++ pcmBuffers.join) 20 = 1 ∧
    readU16 (wavHeader channels sampleRate pcmBuffers.join.length ++ pcmBuffers.join) 22 = channels ∧
    readU32 (wavHeader channels sampleRate pcmBuffers.join.length ++ pcmBuffers.join) 24 = sampleRate ∧
    readU32 (wavHeader channels sampleRate pcmBuffers.join.length ++ pcmBuffers.join) 28 =
      sampleRate * (channels * 2) ∧
    readU16 (wavHeader channels sampleRate pcmBuffers.join.length ++ pcmBuffers.join) 32 =
      channels * 2 ∧
    readU16 (wavHeader channels sampleRate pcmBuffers.join.length ++ pcmBuffers.join) 34 = 16 ∧
    readU32 (wavHeader channels sampleRate pcmBuffers.join.length ++ pcmBuffers.join) 40 =
      pcmBuffers.join.length ∧
    readU32 (wavHeader channels sampleRate pcmBuffers.join.length ++ pcmBuffers.join) 4 =
      36 + pcmBuffers.join.length ∧
    (wavHeader channels sampleRate pcmBuffers.join.length ++ pcmBuffers.join).drop 44 =
      pcmBuffers.join := by
  have hrb := wavHeader_readback channels sampleRate pcmBuffers.join.length
    pcmBuffers.join h1 h2 h3 h4 h5
  refine ⟨?_, hrb.1, hrb.2.1, hrb.2.2.1, hrb.2.2.2.1, hrb.2.2.2.2.1,
    hrb.2.2.2.2.2.1, hrb.2.2.2.2.2.2.1, hrb.2.2.2.2.2.2.2.1,
    hrb.2.2.2.2.2.2.2.2.1, hrb.2.2.2.2.2.2.2.2.2.1⟩
  unfold processBufferFile
  rw [if_neg hne, if_pos (Or.inr hf)]
  unfold pcmFileBytes wavHeaderChecked
  rw [if_pos ⟨h1, h2, h3, h4, h5⟩]

/-- C9 (witness): one mono 16 kHz session flushing three PCM bytes. -/
theorem pcm_wav_header_file_witness :
    (some (s2l "s16le") : Option Str) = some (s2l "s16le") ∧
    ¬(([] : List (List Nat)) = [] ∧ ([[7, 8], [9]] : List (List Nat)) = []) ∧
    processBufferFile (some (s2l "s16le")) [[7, 8], [9]] [] 1 16000 =
      some (wavHeader 1 16000 ([[7, 8], [9]] : List (List Nat)).join.length ++
        ([[7, 8], [9]] : List (List Nat)).join) ∧
    readU16 (wavHeader 1 16000 ([[7, 8], [9]] : List (List Nat)).join.length ++
      ([[7, 8], [9]] : List (List Nat)).join) 22 = 1 ∧
    readU32 (wavHeader 1 16000 ([[7, 8], [9]] : List (List Nat)).join.length ++
      ([[7, 8], [9]] : List (List Nat)).join) 24 = 16000 :=
  have h := pcm_wav_header_file (some (s2l "s16le")) [[7, 8], [9]] [] 1 16000
    rfl (by decide) (by decide) (by decide) (by decide) (by decide) (by decide)
  ⟨rfl, by decide, h.1, h.2.2.2.1, h.2.2.2.2.1⟩

/-! ## Lemmas about whitespace trimming and the space-join -/

/-- A `dropWhile` that preserves length is the identity. -/
theorem dropWhile_eq_self_of_length (p : Char → Bool) (l : Str)
    (h : (l.dropWhile p).length = l.length) : l.dropWhile p = l := by
  induction l with
  | nil => rfl
  | cons c cs ih =>
    by_cases hp : p c
    · rw [List.dropWhile_cons, if_pos hp] at h
      have hle := (List.dropWhile_sublist (l := cs) p).length_le
      simp at h
      omega
    · rw [List.dropWhile_cons, if_neg hp]

/-- If `dropWhile` keeps a non-empty list intact, its head fails the test. -/
theorem head_false_of_dropWhile_self (c : Char) (cs : Str)
    (h : (c :: cs).dropWhile wsChar = c :: cs) : wsChar c = false := by
  by_contra hc'
  have hc2 : wsChar c = true := by simpa using hc'
  rw [List.dropWhile_cons, if_pos hc2] at h
  have hle := (List.dropWhile_sublist (l := cs) wsChar).length_le
  have hlen := congrArg List.length h
  simp at hlen
  omega

/-- Prepending a whitespace-free-headed non-empty list blocks `dropWhile`. -/
theorem dropWhile_append_keep (a b : Str) (ha : a.dropWhile wsChar = a)
    (hne : a ≠ []) : (a ++ b).dropWhile wsChar = a ++ b := by
  obtain ⟨c, cs, rfl⟩ := List.exists_cons_of_ne_nil hne
  have hc := head_false_of_dropWhile_self c cs ha
  rw [List.cons_append, List.dropWhile_cons, if_neg (by simp [hc])]

/-- A trim-stable string survives `dropWhile` from either end. -/
theorem jsTrim_parts (s : Str) (h : jsTrim s = s) :
    s.dropWhile wsChar = s ∧ s.reverse.dropWhile wsChar = s.reverse := by
  have hlen : (jsTrim s).length = s.length := by rw [h]
  have l1 : (((s.dropWhile wsChar).reverse.dropWhile wsChar).reverse).length ≤
      (s.dropWhile wsChar).length := by
    have := (List.dropWhile_sublist (l := (s.dropWhile wsChar).reverse) wsChar).length_le
    simpa using this
  have l2 : (s.dropWhile wsChar).length ≤ s.length :=
    (List.dropWhile_sublist (l := s) wsChar).length_le
  have hj : (jsTrim s).length =
      (((s.dropWhile wsChar).reverse.dropWhile wsChar).reverse).length := rfl
  have ha : (s.dropWhile wsChar).length = s.length := by omega
  have haa : s.dropWhile wsChar = s := dropWhile_eq_self_of_length _ _ ha
  refine ⟨haa, ?_⟩
  have hb : jsTrim s = (s.reverse.dropWhile wsChar).reverse := by
    rw [jsTrim, haa]
  rw [hb] at h
  have := congrArg List.reverse h
  simpa using this

/-- Unfolding of `sepSuf` on a cons. -/
theorem sepSuf_cons (y : Str) (zs : List Str) :
    sepSuf (y :: zs) = ' ' :: (y ++ sepSuf zs) := by
  simp [sepSuf]

/-- `sepSuf` distributes over append. -/
theorem sepSuf_append (u v : List Str) : sepSuf (u ++ v) = sepSuf u ++ sepSuf v := by
  simp [sepSuf]

/-- The fold building `allText` over a non-empty accumulator appends
space-prefixed fragments. -/
theorem joinSp_aux (ts : List Str) :
    ∀ acc : Str, acc ≠ [] →
      ts.foldl (fun acc t => acc ++ (if acc = ([] : Str) then [] else [' ']) ++ t) acc =
        acc ++ sepSuf ts := by
  induction ts with
  | nil =>
    intro acc hacc
    simp [sepSuf]
  | cons t rest ih =>
    intro acc hacc
    simp only [List.foldl, if_neg hacc]
    rw [ih (acc ++ [' '] ++ t) (by simp)]
    simp [sepSuf_cons]

/-- For a batch whose first fragment is non-empty, `joinSp` coincides with
the `sepJoin` normal form. -/
theorem joinSp_eq_sepJoin (t0 : Str) (rest : List Str) (h : t0 ≠ []) :
    joinSp (t0 :: rest) = sepJoin (t0 :: rest) := by
  unfold joinSp sepJoin
  simp only [List.foldl, if_pos rfl, List.nil_append, List.append_nil]
  exact joinSp_aux rest t0 h

/-- The normal form of a non-empty batch is non-empty. -/
theorem sepJoin_ne_nil (t0 : Str) (rest : List Str) (h : t0 ≠ []) :
    sepJoin (t0 :: rest) ≠ [] := by
  simp [sepJoin, h]

/-- Decomposition of the space-join around one designated fragment. -/
theorem sepJoin_decomp (xs : List Str) (y : Str) (zs : List Str) :
    sepJoin (xs ++ y :: zs) = sepPre xs ++ y ++ sepSuf zs := by
  cases xs with
  | nil => simp [sepJoin, sepPre]
  | cons x xs2 =>
    simp [sepJoin, sepPre, sepSuf_append, sepSuf_cons]

/-- Decomposition at the last fragment. -/
theorem sepJoin_concat (init : List Str) (tl : Str) :
    sepJoin (init ++ [tl]) = sepPre init ++ tl := by
  have := sepJoin_decomp init tl []
  simpa [sepSuf] using this

/-- The space-join of non-empty trim-stable fragments is itself trim-stable. -/
theorem sepJoin_trim_stable (ts : List Str)
    (h : ∀ x ∈ ts, x ≠ [] ∧ jsTrim x = x) (hne : ts ≠ []) :
    jsTrim (sepJoin ts) = sepJoin ts := by
  obtain ⟨t0, rest, rfl⟩ := List.exists_cons_of_ne_nil hne
  obtain ⟨h0ne, h0tr⟩ := h t0 (List.mem_cons_self _ _)
  have hfront : (sepJoin (t0 :: rest)).dropWhile wsChar = sepJoin (t0 :: rest) :=
    dropWhile_append_keep t0 _ (jsTrim_parts t0 h0tr).1 h0ne
  obtain ⟨init, tl, hconcat⟩ :=
    (t0 :: rest).eq_nil_or_concat.resolve_left (by simp)
  obtain ⟨hlne, hltr⟩ := h tl (by rw [hconcat]; simp [List.concat_eq_append])
  have hback : (sepJoin (t0 :: rest)).reverse.dropWhile wsChar =
      (sepJoin (t0 :: rest)).reverse := by
    rw [hconcat, List.concat_eq_append, sepJoin_concat, List.reverse_append]
    exact dropWhile_append_keep tl.reverse _ (jsTrim_parts tl hltr).2 (by simp [hlne])
  show ((((sepJoin (t0 :: rest)).dropWhile wsChar).reverse.dropWhile wsChar)).reverse =
    sepJoin (t0 :: rest)
  rw [hfront, hback, List.reverse_reverse]

/-- `appendBatch` on a non-empty trim-stable batch: transcript, separator,
then the batch normal form. -/
theorem appendBatch_eq (t : Str) (ts : List Str)
    (h : ∀ x ∈ ts, x ≠ [] ∧ jsTrim x = x) (hne : ts ≠ []) :
    appendBatch t ts =
      t ++ (if t = ([] : Str) then [] else [' ']) ++ sepJoin ts := by
  obtain ⟨t0, rest, rfl⟩ := List.exists_cons_of_ne_nil hne
  have h0 := h t0 (List.mem_cons_self _ _)
  unfold appendBatch
  rw [joinSp_eq_sepJoin t0 rest h0.1,
      sepJoin_trim_stable (t0 :: rest) h (by simp),
      if_neg (sepJoin_ne_nil t0 rest h0.1)]

/-- `appendBatch` only ever extends the transcript. -/
theorem appendBatch_extends (t : Str) (ts : List Str) :
    ∃ r0, appendBatch t ts = t ++ r0 := by
  unfold appendBatch
  split
  · exact ⟨[], by simp⟩
  · exact ⟨(if t = ([] : Str) then [] else [' ']) ++ jsTrim (joinSp ts),
      by simp [List.append_assoc]⟩

/-- Splitting a list at one position. -/
theorem list_decomp_one (l : List Str) (k : Nat) (hk : k < l.length) :
    l = l.take k ++ l.getD k [] :: l.drop (k + 1) := by
  have h2 : l.drop k = l.getD k [] :: l.drop (k + 1) := by
    rw [List.getD_eq_getElem _ _ hk]
    exact List.drop_eq_getElem_cons hk
  conv_lhs => rw [← List.take_append_drop k l, h2]

/-- Splitting a list at two positions. -/
theorem list_decomp_two (l : List Str) (i j : Nat) (hij : i < j) (hj : j < l.length) :
    l = l.take i ++ l.getD i [] ::
      ((l.drop (i + 1)).take (j - i - 1) ++ l.getD j [] :: l.drop (j + 1)) := by
  have hi : i < l.length := lt_trans hij hj
  have h2 : l.drop i = l.getD i [] :: l.drop (i + 1) := by
    rw [List.getD_eq_getElem _ _ hi]
    exact List.drop_eq_getElem_cons hi
  have h3 : (l.drop (i + 1)).take (j - i - 1) ++ (l.drop (i + 1)).drop (j - i - 1) =
      l.drop (i + 1) := List.take_append_drop _ _
  have h4 : (l.drop (i + 1)).drop (j - i - 1) = l.drop j := by
    rw [List.drop_drop]
    congr 1
    omega
  have h5 : l.drop j = l.getD j [] :: l.drop (j + 1) := by
    rw [List.getD_eq_getElem _ _ hj]
    exact List.drop_eq_getElem_cons hj
  conv_lhs => rw [← List.take_append_drop i l, h2, ← h3, h4, h5]

/-- C8: the running transcript only ever grows by appending, and fragments
keep their arrival order: for `i < j` in one batch (and likewise across two
sequential batches) the `i`-th fragment's text occurs at a strictly earlier
offset of the resulting transcript than the `j`-th's
(src/server.ts:188-209). -/
theorem transcript_append_order_preserved (t : Str) (ts : List Str) (i j : Nat)
    (hij : i < j) (hj : j < ts.length)
    (hts : ∀ x ∈ ts, x ≠ [] ∧ jsTrim x = x) :
    (∃ r0, appendBatch t ts = t ++ r0) ∧
    t.length ≤ (appendBatch t ts).length ∧
    (∃ l m r, appendBatch t ts = l ++ ts.getD i [] ++ m ++ ts.getD j [] ++ r ∧
      0 < m.length) ∧
    (∀ ts2 k, (∀ x ∈ ts2, x ≠ [] ∧ jsTrim x = x) → k < ts2.length →
      ∃ l m r, appendBatch (appendBatch t ts) ts2 =
        l ++ ts.getD i [] ++ m ++ ts2.getD k [] ++ r ∧ 0 < m.length) := by
  obtain ⟨r0, hr0⟩ := appendBatch_extends t ts
  have hts_ne : ts ≠ [] := by
    intro h0
    rw [h0] at hj
    simp at hj
  have habe := appendBatch_eq t ts hts hts_ne
  have hdec := list_decomp_two ts i j hij hj
  have hsj : sepJoin ts =
      sepPre (ts.take i) ++ ts.getD i [] ++
        (sepSuf ((ts.drop (i + 1)).take (j - i - 1)) ++ [' ']) ++
        ts.getD j [] ++ sepSuf (ts.drop (j + 1)) := by
    conv_lhs => rw [hdec]
    rw [sepJoin_decomp, sepSuf_append, sepSuf_cons]
    simp [List.append_assoc]
  have hmain : appendBatch t ts =
      (t ++ (if t = ([] : Str) then [] else [' ']) ++ sepPre (ts.take i)) ++
        ts.getD i [] ++
        (sepSuf ((ts.drop (i + 1)).take (j - i - 1)) ++ [' ']) ++
        ts.getD j [] ++ sepSuf (ts.drop (j + 1)) := by
    rw [habe, hsj]
    simp [List.append_assoc]
  refine ⟨⟨r0, hr0⟩, by rw [hr0]; simp, ⟨_, _, _, hmain, by simp⟩, ?_⟩
  intro ts2 k h2 hk
  have h2ne : ts2 ≠ [] := by
    intro h0
    rw [h0] at hk
    simp at hk
  have himem : ts.getD i [] ∈ ts := by
    have hi : i < ts.length := lt_trans hij hj
    rw [List.getD_eq_getElem _ _ hi]
    exact List.getElem_mem hi
  have hT_ne : appendBatch t ts ≠ [] := by
    rw [hmain]
    simp [(hts _ himem).1]
  have habe2 := appendBatch_eq (appendBatch t ts) ts2 h2 h2ne
  rw [if_neg hT_ne] at habe2
  have hsj2 : sepJoin ts2 =
      sepPre (ts2.take k) ++ ts2.getD k [] ++ sepSuf (ts2.drop (k + 1)) := by
    conv_lhs => rw [list_decomp_one ts2 k hk]
    rw [sepJoin_decomp]
  refine ⟨t ++ (if t = ([] : Str) then [] else [' ']) ++ sepPre (ts.take i),
    (sepSuf ((ts.drop (i + 1)).take (j - i - 1)) ++ [' ']) ++
      ts.getD j [] ++ sepSuf (ts.drop (j + 1)) ++ [' '] ++ sepPre (ts2.take k),
    sepSuf (ts2.drop (k + 1)), ?_, by simp⟩
  rw [habe2, hmain, hsj2]
  simp [List.append_assoc]

/-- C8 (witness): a two-fragment batch appended to a non-empty transcript,
then a second batch. -/
theorem transcript_append_order_preserved_witness :
    (0 : Nat) < 1 ∧ 1 < ([s2l "one", s2l "two"] : List Str).length ∧
    (∀ x ∈ ([s2l "one", s2l "two"] : List Str), x ≠ [] ∧ jsTrim x = x) ∧
    ((∃ r0, appendBatch (s2l "prior") [s2l "one", s2l "two"] = s2l "prior" ++ r0) ∧
     (s2l "prior").length ≤ (appendBatch (s2l "prior") [s2l "one", s2l "two"]).length ∧
     (∃ l m r, appendBatch (s2l "prior") [s2l "one", s2l "two"] =
        l ++ ([s2l "one", s2l "two"] : List Str).getD 0 [] ++ m ++
          ([s2l "one", s2l "two"] : List Str).getD 1 [] ++ r ∧ 0 < m.length) ∧
     (∀ ts2 k, (∀ x ∈ ts2, x ≠ [] ∧ jsTrim x = x) → k < ts2.length →
       ∃ l m r, appendBatch (appendBatch (s2l "prior") [s2l "one", s2l "two"]) ts2 =
         l ++ ([s2l "one", s2l "two"] : List Str).getD 0 [] ++ m ++
           ts2.getD k [] ++ r ∧ 0 < m.length)) :=
  ⟨by decide, by decide, by decide,
   transcript_append_order_preserved (s2l "prior") [s2l "one", s2l "two"] 0 1
     (by decide) (by decide) (by decide)⟩

/-- Running a trace splits across concatenation. -/
theorem runSession_append (st : SessState) (a b : List SessEvent) :
    runSession st (a ++ b) =
      ((runSession (runSession st a).1 b).1,
       (runSession st a).2 ++ (runSession (runSession st a).1 b).2) := by
  induction a generalizing st with
  | nil => simp [runSession]
  | cons e es ih => simp [runSession, ih, List.append_assoc]

/-- Validity restricts to prefixes. -/
theorem sessValid_take (es : List SessEvent) :
    ∀ st n, sessValid st es = true → sessValid st (es.take n) = true := by
  induction es with
  | nil =>
    intro st n _
    simp [sessValid]
  | cons e rest ih =>
    intro st n hv
    cases n with
    | zero => rfl
    | succ m =>
      have hv2 : sessPermitted st e = true ∧ sessValid (sessStep st e).1 rest = true := by
        simpa [sessValid, Bool.and_eq_true] using hv
      simp only [List.take_succ_cons, sessValid, Bool.and_eq_true]
      exact ⟨hv2.1, ih _ m hv2.2⟩

/-- Along a valid, handshake-free trace starting from a state with no
summary timer, no `s16le` format and no PCM buffered: the summary timer
never starts, the format stays unset, the PCM buffer stays empty, and every
emitted broadcast is a `transcript_piece`. -/
theorem sess_no_handshake_invariant (es : List SessEvent) :
    ∀ st, sessValid st es = true → (∀ e ∈ es, isHandshakeEv e = false) →
      st.summaryStarted = false → st.connFormat = none → st.pcmBuffers = [] →
      ((runSession st es).1.summaryStarted = false ∧
       (runSession st es).1.connFormat = none ∧
       (runSession st es).1.pcmBuffers = [] ∧
       ∀ o ∈ (runSession st es).2, isPieceEmit o = true) := by
  induction es with
  | nil =>
    intro st _ _ h1 h2 h3
    exact ⟨h1, h2, h3, by simp [runSession]⟩
  | cons e rest ih =>
    intro st hv hnh h1 h2 h3
    have hv2 : sessPermitted st e = true ∧ sessValid (sessStep st e).1 rest = true := by
      simpa [sessValid, Bool.and_eq_true] using hv
    have hnh1 : isHandshakeEv e = false := hnh e (List.mem_cons_self _ _)
    have hnh2 : ∀ x ∈ rest, isHandshakeEv x = false :=
      fun x hx => hnh x (List.mem_cons_of_mem _ hx)
    simp only [runSession]
    cases e with
    | message m =>
      cases m with
      | handshake cfg => simp [isHandshakeEv] at hnh1
      | wsBinary b =>
        have hstep : sessStep st (.message (.wsBinary b)) =
            ({ st with audioBuffers := st.audioBuffers ++ [b] }, []) := by
          simp [sessStep, h2]
        rw [hstep] at hv2 ⊢
        have := ih _ hv2.2 hnh2 (by simpa using h1) (by simpa using h2)
          (by simpa using h3)
        simpa using this
    | ingestFlush trs =>
      by_cases hb : st.audioBuffers = [] ∧ st.pcmBuffers = []
      · have hstep : sessStep st (.ingestFlush trs) = (st, []) := by
          simp [sessStep, hb]
        rw [hstep] at hv2 ⊢
        simpa using ih _ hv2.2 hnh2 h1 h2 h3
      · have hcond : ¬(st.pcmBuffers ≠ [] ∨ st.connFormat = some (s2l "s16le")) := by
          simp [h2, h3]
        simp only [sessStep, if_neg hb, if_neg hcond] at hv2 ⊢
        have hrest := ih _ hv2.2 hnh2 (by simp [h1]) (by simp [h2]) (by simp [h3])
        refine ⟨hrest.1, hrest.2.1, hrest.2.2.1, ?_⟩
        intro o ho
        rcases List.mem_append.mp ho with hml | hmr
        · obtain ⟨p, _, rfl⟩ := List.mem_map.mp hml
          rfl
        · exact hrest.2.2.2 o hmr
    | summaryTick res fid =>
      have : st.summaryStarted = true := by
        have := hv2.1
        simp [sessPermitted, Bool.and_eq_true] at this
        exact this.1
      rw [h1] at this
      cases this
    | close =>
      have hstep : sessStep st .close = ({ st with closed := true }, []) := by
        simp [sessStep]
      rw [hstep] at hv2 ⊢
      simpa using ih _ hv2.2 hnh2 (by simpa using h1) (by simpa using h2)
        (by simpa using h3)

/-- The state after `n + 1` events is one step past the state after `n`. -/
theorem stateAfter_succ_eq (es : List SessEvent) (n : Nat) (e : SessEvent)
    (h : es.get? n = some e) :
    stateAfter es (n + 1) = (sessStep (stateAfter es n) e).1 := by
  unfold stateAfter
  rw [List.take_succ]
  have h2 : es[n]? = some e := by
    simpa [← List.get?_eq_getElem?] using h
  rw [h2]
  simp [runSession_append, runSession]

/-- C10: over any valid session trace in which no message is ever
recognised as a handshake, no `chunk` card is ever broadcast (every output
is a `transcript_piece`) and the summary timer never starts — while binary
audio is still buffered and an ingest flush still transcribes it, emits
`transcript_piece` events and appends to the transcript
(src/server.ts:86-135, 212-289). -/
theorem no_handshake_no_summary_broadcast (es : List SessEvent)
    (hv : sessValid initSession es = true)
    (hnh : ∀ e ∈ es, isHandshakeEv e = false) :
    (∀ o ∈ (runSession initSession es).2, isPieceEmit o = true) ∧
    (runSession initSession es).1.summaryStarted = false ∧
    (∀ n b, es.get? n = some (.message (.wsBinary b)) →
      (stateAfter es (n + 1)).audioBuffers = (stateAfter es n).audioBuffers ++ [b]) ∧
    (∀ n trs, es.get? n = some (.ingestFlush trs) →
      (stateAfter es n).audioBuffers ≠ [] →
      (sessStep (stateAfter es n) (.ingestFlush trs)).2 =
        trs.enum.map (fun p => Emit.piece p.1 p.2) ∧
      (stateAfter es (n + 1)).completeTranscript =
        appendBatch (stateAfter es n).completeTranscript trs) := by
  have hmain := sess_no_handshake_invariant es initSession hv hnh rfl rfl rfl
  have hinv : ∀ n, (stateAfter es n).summaryStarted = false ∧
      (stateAfter es n).connFormat = none ∧ (stateAfter es n).pcmBuffers = [] := by
    intro n
    have hvt := sessValid_take es initSession n hv
    have hnht : ∀ e ∈ es.take n, isHandshakeEv e = false :=
      fun e he => hnh e (List.take_subset _ _ he)
    have h := sess_no_handshake_invariant (es.take n) initSession hvt hnht rfl rfl rfl
    exact ⟨h.1, h.2.1, h.2.2.1⟩
  refine ⟨hmain.2.2.2, hmain.1, ?_, ?_⟩
  · intro n b hget
    rw [stateAfter_succ_eq es n _ hget]
    simp [sessStep, (hinv n).2.1]
  · intro n trs hget hne'
    have hcond : ¬((stateAfter es n).audioBuffers = [] ∧
        (stateAfter es n).pcmBuffers = []) := fun h => hne' h.1
    constructor
    · simp [sessStep, hcond]
    · rw [stateAfter_succ_eq es n _ hget]
      simp [sessStep, hcond]

/-- C10 (witness): a concrete handshake-free trace — audio, a flush, more
audio, close. -/
theorem no_handshake_no_summary_broadcast_witness :
    sessValid initSession w10Events = true ∧
    (∀ e ∈ w10Events, isHandshakeEv e = false) ∧
    ((∀ o ∈ (runSession initSession w10Events).2, isPieceEmit o = true) ∧
     (runSession initSession w10Events).1.summaryStarted = false ∧
     (∀ n b, w10Events.get? n = some (.message (.wsBinary b)) →
       (stateAfter w10Events (n + 1)).audioBuffers =
         (stateAfter w10Events n).audioBuffers ++ [b]) ∧
     (∀ n trs, w10Events.get? n = some (.ingestFlush trs) →
       (stateAfter w10Events n).audioBuffers ≠ [] →
       (sessStep (stateAfter w10Events n) (.ingestFlush trs)).2 =
         trs.enum.map (fun p => Emit.piece p.1 p.2) ∧
       (stateAfter w10Events (n + 1)).completeTranscript =
         appendBatch (stateAfter w10Events n).completeTranscript trs)) :=
  ⟨by decide, by decide,
   no_handshake_no_summary_broadcast w10Events (by decide) (by decide)⟩
